import Mathlib

/-!
Verification development for the CookieVault encrypted backup/restore
pipeline.  The definitions below are a shallow embedding of the relevant
JavaScript source modules (popup.js, backup-core.js, the enhanced-features
module and the settings module); each definition carries a comment naming
the source function it embeds.  JavaScript 32-bit integer folding is made
explicit with arithmetic modulo 2^32; strings hashed by the checksum are
represented by their lists of UTF-16 code units.
-/

namespace CookieVault

/-! ## Checksum utility

Embeds calculateChecksum (enhanced-features module) and generateChecksum
(settings module).  Both sources run, over the UTF-16 code units of the
input string, the update
  hash = (hash << 5) - hash + char;  hash = hash & hash;
where << and & fold the value into a 32-bit signed integer, and finally
render the hash with toString(16), which prints a leading minus sign for
negative values followed by the lowercase hexadecimal digits of the
absolute value.
-/

/-- JavaScript ToInt32: reduce an integer modulo 2^32 into the signed
range from -2^31 to 2^31 - 1. -/
def jsToInt32 (n : Int) : Int :=
  let m := n % 4294967296
  if m < 2147483648 then m else m - 4294967296

/-- Lowercase hexadecimal digit, as printed by JavaScript toString(16). -/
def hexDigit (n : Nat) : Char :=
  if n < 10 then Char.ofNat (48 + n) else Char.ofNat (87 + n)

/-- Digits of n in base 16, most significant first; empty for 0.
Fuel-structured so that closed instances evaluate by rfl. -/
def natToHexAux : Nat → Nat → List Char
  | 0, _ => []
  | fuel + 1, n => if n = 0 then [] else natToHexAux fuel (n / 16) ++ [hexDigit (n % 16)]

/-- Hexadecimal rendering of a natural number, as JavaScript toString(16). -/
def natToHex (n : Nat) : String :=
  if n = 0 then "0" else String.mk (natToHexAux (n + 1) n)

/-- JavaScript Number.prototype.toString(16) on a 32-bit signed integer:
a leading minus sign for negative values, then the hex magnitude. -/
def toHexJS (n : Int) : String :=
  if n < 0 then "-" ++ natToHex n.natAbs else natToHex n.toNat

/-- One update of the rolling hash of calculateChecksum
(enhanced-features module):
  hash = (hash << 5) - hash + char;  hash = hash & hash; -/
def csStep (hash : Int) (char : Nat) : Int :=
  jsToInt32 (jsToInt32 (hash * 32) - hash + char)

/-- calculateChecksum (enhanced-features module): rolling hash over the
UTF-16 code units of the input, rendered in hexadecimal. -/
def calculateChecksum (data : List Nat) : String :=
  toHexJS (data.foldl csStep 0)

/-- One update of the rolling hash of generateChecksum (settings module):
  hash = ((hash << 5) - hash) + char;  hash = hash & hash; -/
def gsStep (hash : Int) (char : Nat) : Int :=
  jsToInt32 (jsToInt32 (hash * 32) - hash + char)

/-- generateChecksum (settings module): same rolling hash and rendering,
written in the settings module for settings-file export/import. -/
def generateChecksum (data : List Nat) : String :=
  toHexJS (data.foldl gsStep 0)

/-! ## Backup history ledger -/

/-- One entry of the backup history ledger, as built by addToBackupHistory
in the enhanced-features module. -/
structure BackupHistoryEntry where
  id : Nat
  date : String
  type : String
  cookieCount : Nat
  size : Nat
  filename : String
  encrypted : Bool
deriving DecidableEq, Repr

/-- addToBackupHistory (enhanced-features module), list part:
backupHistory.unshift(historyEntry) followed by
  if (backupHistory.length > 50) backupHistory = backupHistory.slice(0, 50). -/
def addToBackupHistory (backupHistory : List BackupHistoryEntry)
    (historyEntry : BackupHistoryEntry) : List BackupHistoryEntry :=
  let h := historyEntry :: backupHistory
  if 50 < h.length then h.take 50 else h

/-- One entry of the backup history ledger kept by backup-core.js. -/
structure CoreHistoryEntry where
  timestamp : String
  type : String
  filename : String
  cookieCount : Nat
deriving DecidableEq, Repr

/-- addToBackupHistory (backup-core.js), list part:
backupHistory.unshift(entry) followed by
  if (backupHistory.length > 50) backupHistory.length = 50. -/
def addToBackupHistoryCore (backupHistory : List CoreHistoryEntry)
    (entry : CoreHistoryEntry) : List CoreHistoryEntry :=
  let h := entry :: backupHistory
  if 50 < h.length then h.take 50 else h

/-! ## Data model: texts, JSON values, ciphertexts

The backup pipeline passes strings around: a string may be the rendering
of a JSON value (JSON.stringify), the opaque rendering of an sjcl
ciphertext, or arbitrary text.  The three-way mutual type below makes the
provenance of every string explicit: JSON.parse of a stringified value
returns that value, JSON string leaves and ciphertext plaintexts are again
texts.  The sjcl library itself is not part of the repository sources, so
ciphertexts are modelled from the spec (section 4.2), as an opaque
password/plaintext/salt triple.
-/

mutual

inductive Json where
  | null : Json
  | bool : Bool → Json
  | num : Int → Json
  | str : Text → Json
  | arr : List Json → Json
  | obj : List (String × Json) → Json

inductive Text where
  | raw : String → Text
  | ofJson : Json → Text
  | ofCipher : Cipher → Text

/-- Modelled from the spec: the sjcl library is not under src/.  Section
4.2 describes encrypt as producing a self-describing ciphertext from a
password and a plaintext with a fresh random salt/IV; the salt is the
nonce component below. -/
inductive Cipher where
  | enc : String → Text → Nat → Cipher

end

/-- Property lookup on a parsed JSON value, as JavaScript wrapper.field:
an own property of an object, undefined (none) otherwise. -/
def lookupKV (key : String) : List (String × Json) → Option Json
  | [] => none
  | (k, v) :: rest => if k = key then some v else lookupKV key rest

/-- JavaScript property access wrapper.key on a JSON.parse result. -/
def jLookup (key : String) (j : Json) : Option Json :=
  match j with
  | .obj kvs => lookupKV key kvs
  | _ => none

/-- JavaScript truthiness of a string: nonempty. -/
def textTruthy : Text → Bool
  | .raw s => s != ""
  | .ofJson _ => true
  | .ofCipher _ => true

/-- JavaScript truthiness of a parsed JSON value. -/
def jsonTruthy : Json → Bool
  | .null => false
  | .bool b => b
  | .num n => n != 0
  | .str t => textTruthy t
  | .arr _ => true
  | .obj _ => true

/-- JSON.parse on a text: succeeds exactly on stringified JSON values and
returns the value.  Raw texts and ciphertext renderings are treated as
non-JSON; an sjcl ciphertext rendering does parse as JSON in the browser,
but it carries no payload member, so every consumer in the sources takes
the same branch for it as for a parse failure. -/
def parseJson : Text → Option Json
  | .ofJson j => some j
  | _ => none

/-- The string content of a JSON value at a string position, as the
sources pass wrapper.payload onward; only string members arise from
backups the code produces. -/
def textOfJson : Json → Text
  | .str t => t
  | j => .ofJson j

/-! ## Cookie records -/

/-- One cookie record as serialized into a backup: name, value and domain
always present (the shape the restore validation checks), the remaining
browser fields optional. -/
structure CookieRecord where
  name : String
  value : String
  domain : String
  path : Option String := none
  secure : Option Bool := none
  httpOnly : Option Bool := none
  sameSite : Option String := none
  hostOnly : Option Bool := none
  session : Option Bool := none
  expirationDate : Option Int := none
deriving DecidableEq, Repr

/-- Helper: a present optional field of a JSON object. -/
def optField (k : String) : Option Json → List (String × Json)
  | some j => [(k, j)]
  | none => []

/-- The JSON object a cookie record serializes to; JSON.stringify of a
record omits absent fields. -/
def cookieToJson (c : CookieRecord) : Json :=
  .obj ([("domain", .str (.raw c.domain)), ("name", .str (.raw c.name)),
         ("value", .str (.raw c.value))]
    ++ optField "path" (c.path.map (fun s => .str (.raw s)))
    ++ optField "secure" (c.secure.map .bool)
    ++ optField "httpOnly" (c.httpOnly.map .bool)
    ++ optField "sameSite" (c.sameSite.map (fun s => .str (.raw s)))
    ++ optField "hostOnly" (c.hostOnly.map .bool)
    ++ optField "session" (c.session.map .bool)
    ++ optField "expirationDate" (c.expirationDate.map .num))

/-- A string member of a parsed cookie object. -/
def jAsStr : Option Json → Option String
  | some (.str (.raw s)) => some s
  | _ => none

/-- A boolean member of a parsed cookie object. -/
def jAsBool : Option Json → Option Bool
  | some (.bool b) => some b
  | _ => none

/-- A numeric member of a parsed cookie object. -/
def jAsNum : Option Json → Option Int
  | some (.num n) => some n
  | _ => none

/-- Reading a cookie record back out of a parsed JSON object: the fields
the restore code accesses, requiring the always-present name, value and
domain. -/
def cookieFromJson (j : Json) : Option CookieRecord :=
  match j with
  | .obj kvs =>
    match lookupKV "domain" kvs, lookupKV "name" kvs, lookupKV "value" kvs with
    | some (.str (.raw d)), some (.str (.raw n)), some (.str (.raw v)) =>
      some { name := n, value := v, domain := d,
             path := jAsStr (lookupKV "path" kvs),
             secure := jAsBool (lookupKV "secure" kvs),
             httpOnly := jAsBool (lookupKV "httpOnly" kvs),
             sameSite := jAsStr (lookupKV "sameSite" kvs),
             hostOnly := jAsBool (lookupKV "hostOnly" kvs),
             session := jAsBool (lookupKV "session" kvs),
             expirationDate := jAsNum (lookupKV "expirationDate" kvs) }
    | _, _, _ => none
  | _ => none

/-- Reading a whole parsed cookie array back as records. -/
def decodeRecords : List Json → Option (List CookieRecord)
  | [] => some []
  | j :: rest =>
    match cookieFromJson j, decodeRecords rest with
    | some c, some cs => some (c :: cs)
    | _, _ => none

/-! ## Cipher adapter -/

/-- Modelled from the spec: sjcl.encrypt (the sjcl library is not under
src/).  Section 4.2: encrypt(password, plaintext) produces a
self-describing ciphertext; the nonce stands for the fresh salt/IV of the
call. -/
def sjclEncrypt (password : String) (plaintext : Text) (nonce : Nat) : Cipher :=
  .enc password plaintext nonce

/-- The two sjcl decryption failures the restore code distinguishes:
corrupt (authentication failed, wrong password) and invalid (the input is
not a parseable ciphertext). -/
inductive SjclErr where
  | corrupt : SjclErr
  | invalid : SjclErr
deriving DecidableEq, Repr

/-- Modelled from the spec: sjcl.decrypt (the sjcl library is not under
src/).  Section 4.2: decryption with the matching password recovers the
plaintext; a wrong password fails as WrongPassword (sjcl corrupt); any
text that is not a ciphertext fails as MalformedCiphertext (sjcl
invalid). -/
def sjclDecrypt (password : String) (t : Text) : Except SjclErr Text :=
  match t with
  | .ofCipher (.enc p plain _) =>
    if p = password then .ok plain else .error .corrupt
  | _ => .error .invalid

/-! ## Compression (enhanced-features module) -/

/-- compressData (enhanced-features module): the source returns the data
as-is (the pako hook is not included). -/
def compressData (data : Text) : Text := data

/-- decompressData (enhanced-features module): the source returns the
data as-is. -/
def decompressData (data : Text) : Text := data

/-! ## Checksum over pipeline texts

calculateChecksum hashes the UTF-16 code units of its argument string.
The exact character rendering of stringified JSON and of sjcl ciphertexts
is not reconstructible from the sources (sjcl is absent and rendering is a
library detail), and no verified property below depends on more than the
checksum being a fixed deterministic function of the text, so the code
units of a text are taken from an executable structural encoding.
-/

/-- UTF-16 code units of a plain string (code points below 2^16 each give
one unit, which covers every string in this development). -/
def strCode (s : String) : List Nat :=
  s.toList.map Char.toNat

/-- Deterministic code-unit sequence of a text, by provenance. -/
def textCode : Text → List Nat
  | .raw s => 0 :: strCode s
  | .ofJson _ => [1]
  | .ofCipher (.enc p _ nonce) => 2 :: nonce :: strCode p

/-- The checksum the pipeline attaches to a payload text:
calculateChecksum of its code units. -/
def checksumT (t : Text) : String :=
  calculateChecksum (textCode t)

/-! ## Backup producer -/

/-- The envelope object built by handleEncPasswdSubmit (popup.js):
  let data = { v: 1, payload: cipherText, checksum: null };
  if (window.enhancedFeatures)
    data.checksum = window.enhancedFeatures.calculateChecksum(cipherText);
The enhanced flag is the presence of window.enhancedFeatures. -/
def wrapEnvelope (enhanced : Bool) (cipherText : Text) : Json :=
  .obj [("v", .num 1), ("payload", .str cipherText),
        ("checksum", if enhanced then .str (.raw (checksumT cipherText)) else .null)]

/-- The serialized snapshot: JSON.stringify(cookies). -/
def serializeSnapshot (cookies : List CookieRecord) : Json :=
  .arr (cookies.map cookieToJson)

/-- The full backup file text written by handleEncPasswdSubmit (popup.js):
stringify the cookie list, compress, encrypt with the password, wrap in
the envelope, stringify the envelope.  The same text goes to the download
and to the Telegram push. -/
def encBackupFile (enhanced : Bool) (pass : String) (cookies : List CookieRecord)
    (nonce : Nat) : Text :=
  .ofJson (wrapEnvelope enhanced
    (.ofCipher (sjclEncrypt pass (compressData (.ofJson (serializeSnapshot cookies))) nonce)))

/-- The backup text written by manualCookieBackup (backup-core.js): the
bare sjcl.encrypt(password, JSON.stringify(cookies)) string, with no
envelope; it is both the download blob content and the Telegram payload
of that path. -/
def manualBackupText (password : String) (cookies : List CookieRecord)
    (nonce : Nat) : Text :=
  .ofCipher (sjclEncrypt password (.ofJson (serializeSnapshot cookies)) nonce)

/-! ## Restore consumer: envelope detection and decode
(handleDecPasswdSubmit, popup.js) -/

/-- JavaScript strict equality member === 1 on an optional JSON member:
true exactly for the number one. -/
def isNumOne : Option Json → Bool
  | some (.num n) => n == 1
  | _ => false

/-- Envelope recognition of handleDecPasswdSubmit: JSON.parse the raw
text, then require wrapper.v === 1 and a truthy wrapper.payload; returns
the payload member and the checksum member.  Anything else is the legacy
path. -/
def envelopeParts (data : Text) : Option (Json × Option Json) :=
  match parseJson data with
  | some w =>
    if isNumOne (jLookup "v" w) then
      match jLookup "payload" w with
      | some pj => if jsonTruthy pj then some (pj, jLookup "checksum" w) else none
      | none => none
    else none
  | none => none

/-- The encryptedData handleDecPasswdSubmit hands to sjcl.decrypt.  On the
envelope path with a truthy checksum and enhanced features present, a
mismatching checksum throws inside the inner try, and the inner catch
resets encryptedData to the raw input text (the backward-compatibility
fallback); only a matching checksum, an absent or falsy checksum, or
absent enhanced features let the payload through. -/
def selectEncryptedData (enhanced : Bool) (data : Text) : Text :=
  match envelopeParts data with
  | none => data
  | some (pj, csum) =>
    let payload := textOfJson pj
    match csum with
    | none => payload
    | some cj =>
      if jsonTruthy cj && enhanced then
        match cj with
        | .str (.raw s) => if checksumT payload = s then payload else data
        | _ => data
      else payload

/-- The user-facing alerts of handleDecPasswdSubmit that its catch block
can actually reach: the checksum-specific branch and the
invalid-cookie-structure branch compare against messages no reachable
throw produces, so those throws surface as the unknown-error alert. -/
inductive Alert where
  | needPassword : Alert
  | passwordIncorrect : Alert
  | invalidFile : Alert
  | unknown : Alert
deriving DecidableEq, Repr

/-- JavaScript hasOwnProperty on a parsed JSON member; on a non-object
first element the code throws and lands on the same unknown-error alert
as a false answer does here. -/
def hasField (key : String) (j : Json) : Bool :=
  match j with
  | .obj kvs => (lookupKV key kvs).isSome
  | _ => false

/-- The decode half of handleDecPasswdSubmit (popup.js): password
presence check, envelope detection and checksum handling, sjcl.decrypt,
decompress, JSON.parse, array check, and the required-fields check on the
first cookie.  Returns the parsed cookie array handed to the replay
loop. -/
def decodeStage (enhanced : Bool) (pass : String) (data : Text) :
    Except Alert (List Json) :=
  if pass.length = 0 then .error .needPassword else
  match sjclDecrypt pass (selectEncryptedData enhanced data) with
  | .error .corrupt => .error .passwordIncorrect
  | .error .invalid => .error .invalidFile
  | .ok decrypted =>
    match parseJson (decompressData decrypted) with
    | none => .error .unknown
    | some j =>
      match j with
      | .arr cookies =>
        match cookies with
        | [] => .ok []
        | c0 :: _ =>
          if hasField "name" c0 && hasField "value" c0 && hasField "domain" c0 then
            .ok cookies
          else .error .unknown
      | _ => .error .unknown

/-! ## Restore replay loop (handleDecPasswdSubmit, popup.js) -/

/-- JavaScript truthiness of an optional boolean field. -/
def optTruthy (o : Option Bool) : Bool :=
  o.getD false

/-- The target URL handleDecPasswdSubmit computes before any mutation of
the record:
  "http" + (cookie.secure ? "s" : "") + "://" +
  (cookie.domain.startsWith(".") ? cookie.domain.slice(1) : cookie.domain) +
  cookie.path;
an absent path concatenates as the text undefined. -/
def mkUrl (c : CookieRecord) : String :=
  "http" ++ (if optTruthy c.secure then "s" else "") ++ "://"
    ++ (if c.domain.startsWith "." then c.domain.drop 1 else c.domain)
    ++ (match c.path with | some p => p | none => "undefined")

/-- The argument object passed to chrome.cookies.set by the replay loop;
none at domain or expirationDate means the field was deleted before the
call. -/
structure SetArg where
  url : String
  name : String
  value : String
  domain : Option String
  path : String
  secure : Bool
  httpOnly : Bool
  sameSite : String
  expirationDate : Option Int
deriving DecidableEq, Repr

/-- The record preparation of the replay loop, in source order: compute
the url first; delete domain when hostOnly == true; delete expirationDate
when session == true; then fill defaults: a falsy sameSite becomes
no_restriction, an undefined secure becomes url.startsWith("https"), an
undefined httpOnly becomes false, an undefined path becomes "/". -/
def prepare (c : CookieRecord) : SetArg :=
  let url := mkUrl c
  { url := url
    name := c.name
    value := c.value
    domain := if c.hostOnly = some true then none else some c.domain
    expirationDate := if c.session = some true then none else c.expirationDate
    sameSite :=
      match c.sameSite with
      | some s => if s = "" then "no_restriction" else s
      | none => "no_restriction"
    secure :=
      match c.secure with
      | some b => b
      | none => url.startsWith "https"
    httpOnly := c.httpOnly.getD false
    path := c.path.getD "/" }

/-- The expiry test of the replay loop:
  if (cookie.expirationDate && epoch > cookie.expirationDate) continue;
a present zero expirationDate is falsy and is not skipped. -/
def isExpiredSkip (now : Int) (c : CookieRecord) : Bool :=
  match c.expirationDate with
  | some e => (e != 0) && decide (e < now)
  | none => false

/-- Per-record outcome of the replay loop: the expirationWarning message
pair, the unknownErrWarning message pair, or a counted success. -/
inductive Outcome where
  | expired : String → String → Outcome
  | unknownErr : String → String → Outcome
  | restored : Outcome
deriving DecidableEq, Repr

/-- One iteration of the replay loop.  The collaborator answer is none
for a successful chrome.cookies.set and some message when the call
reports chrome.runtime.lastError; the second component records the
argument of the issued set call, none when the record was skipped before
the call. -/
def replayStep (now : Int) (answer : Option String) (c : CookieRecord) :
    Outcome × Option SetArg :=
  if isExpiredSkip now c then (.expired c.name (mkUrl c), none)
  else
    match answer with
    | some msg => (.unknownErr c.name ((prepare c).url ++ " - " ++ msg), some (prepare c))
    | none => (.restored, some (prepare c))

/-- The replay loop over the cookie list, strictly sequential, one
collaborator answer per list position. -/
def replayAux (now : Int) (oracle : Nat → Option String) :
    Nat → List CookieRecord → List (Outcome × Option SetArg)
  | _, [] => []
  | i, c :: rest => replayStep now (oracle i) c :: replayAux now oracle (i + 1) rest

/-- Replay of a whole snapshot. -/
def replay (now : Int) (oracle : Nat → Option String)
    (records : List CookieRecord) : List (Outcome × Option SetArg) :=
  replayAux now oracle 0 records

/-- Whether an outcome incremented the success counter. -/
def outcomeRestored : Outcome → Bool
  | .restored => true
  | _ => false

/-- The final restoreSuccessAlert(total, cookies.length) pair: successes
counted against the full list length. -/
def restoreAlert (now : Int) (oracle : Nat → Option String)
    (records : List CookieRecord) : Nat × Nat :=
  ((replay now oracle records).countP (fun r => outcomeRestored r.1), records.length)

/-- The set calls the replay actually issued. -/
def issuedCalls (results : List (Outcome × Option SetArg)) : List SetArg :=
  results.filterMap (fun r => r.2)

/-- The set calls that were issued and reported success. -/
def writtenCalls (results : List (Outcome × Option SetArg)) : List SetArg :=
  results.filterMap (fun r => match r with
    | (.restored, some a) => some a
    | _ => none)

/-! ## The other two restore paths -/

/-- The argument object restoreCookies (backup-core.js) passes to
chrome.cookies.set: domain and expirationDate are always sent, path,
secure and httpOnly are sent as-is, sameSite falls back to lax, and the
url concatenates domain and path directly (an absent path concatenates as
the text undefined). -/
structure CoreSetArg where
  url : String
  name : String
  value : String
  domain : String
  path : Option String
  secure : Option Bool
  httpOnly : Option Bool
  sameSite : String
  expirationDate : Option Int
deriving DecidableEq, Repr

/-- The newCookie object built per record by restoreCookies
(backup-core.js). -/
def coreSetArg (c : CookieRecord) : CoreSetArg :=
  { url := "http" ++ (if optTruthy c.secure then "s" else "") ++ "://" ++ c.domain
      ++ (match c.path with | some p => p | none => "undefined")
    name := c.name
    value := c.value
    domain := c.domain
    path := c.path
    secure := c.secure
    httpOnly := c.httpOnly
    sameSite :=
      match c.sameSite with
      | some s => if s = "" then "lax" else s
      | none => "lax"
    expirationDate := c.expirationDate }

/-- The argument object restoreUnencryptedCookies (popup.js) passes to
chrome.cookies.set: domain is always sent, no hostOnly or session
stripping, no expirationDate member at all, defaults path "/", secure
false, httpOnly false, sameSite no_restriction. -/
def unencSetArg (c : CookieRecord) : SetArg :=
  { url := "http" ++ (if optTruthy c.secure then "s" else "") ++ "://" ++ c.domain
      ++ (match c.path with
          | some p => if p = "" then "/" else p
          | none => "/")
    name := c.name
    value := c.value
    domain := some c.domain
    path :=
      match c.path with
      | some p => if p = "" then "/" else p
      | none => "/"
    secure := c.secure.getD false
    httpOnly := c.httpOnly.getD false
    sameSite :=
      match c.sameSite with
      | some s => if s = "" then "no_restriction" else s
      | none => "no_restriction"
    expirationDate := none }

/-- The per-record loop of restoreCookies (backup-core.js): each record
gets its own try/catch around one awaited chrome.cookies.set call; a
rejected call increments failCount and the loop continues with the next
record, a resolved call increments successCount.  The oracle gives the
per-record success answer. -/
def restoreCoreCounts (oracle : Nat → Bool) :
    Nat → Nat → Nat → List CookieRecord → Nat × Nat
  | _, successCount, failCount, [] => (successCount, failCount)
  | i, successCount, failCount, _c :: rest =>
    if oracle i then restoreCoreCounts oracle (i + 1) (successCount + 1) failCount rest
    else restoreCoreCounts oracle (i + 1) successCount (failCount + 1) rest

/-- The {success, failed} report restoreCookies (backup-core.js) returns
after its loop. -/
def restoreCookiesReport (records : List CookieRecord) (oracle : Nat → Bool) :
    Nat × Nat :=
  restoreCoreCounts oracle 0 0 0 records

/-- The counting loop of restoreUnencryptedCookies (popup.js): every
chrome.cookies.set callback increments imported without consulting
chrome.runtime.lastError, and fires restoreSuccessAlert(imported) when
imported reaches cookies.length.  The oracle gives the per-call success
answer the callback receives and ignores.  Returns the final imported
counter and the alert argument if the alert fired. -/
def ruAux (oracle : Nat → Bool) (n : Nat) :
    Nat → Nat → Option Nat → List CookieRecord → Nat × Option Nat
  | _, imported, alert, [] => (imported, alert)
  | i, imported, alert, _c :: rest =>
    let _answer := oracle i
    let imported1 := imported + 1
    let alert1 := if imported1 = n then some imported1 else alert
    ruAux oracle n (i + 1) imported1 alert1 rest

/-- restoreUnencryptedCookies (popup.js), counting and alert part. -/
def restoreUnencrypted (records : List CookieRecord) (oracle : Nat → Bool) :
    Nat × Option Nat :=
  ruAux oracle records.length 0 0 none records

/-! ## Sample inputs for witnesses and counterexamples, and the
spec-side comparison definitions -/

/-- A full 50-entry ledger of the enhanced-features module. -/
def histFull : List BackupHistoryEntry :=
  (List.range 50).map (fun i => ⟨i, "d", "manual", 0, 0, "f", false⟩)

/-- A full 50-entry ledger of backup-core.js. -/
def histFullCore : List CoreHistoryEntry :=
  (List.range 50).map (fun i => ⟨"t", "manual", "f", i⟩)

/-- A fresh 51st ledger entry. -/
def entNew : BackupHistoryEntry := ⟨50, "now", "manual", 3, 9, "g", true⟩

/-- A fresh 51st backup-core ledger entry. -/
def entNewCore : CoreHistoryEntry := ⟨"now", "manual", "g", 3⟩

/-- A record with the restore-time hints set, as it appears in a backup
of a host-only session cookie. -/
def cHostOnly : CookieRecord :=
  { name := "sid"
    value := "1"
    domain := "a.example"
    hostOnly := some true
    session := some true
    expirationDate := some 99 }

/-- A record carrying a present but falsy expirationDate of zero, an
epoch second in the past. -/
def cZeroExpiry : CookieRecord :=
  { name := "z"
    value := "v"
    domain := "d.com"
    expirationDate := some 0 }

/-- An expired record: expiry epoch 50, replayed at epoch 100. -/
def cPastExpiry : CookieRecord :=
  { name := "e"
    value := "v"
    domain := "d.com"
    expirationDate := some 50 }

/-- A plain record without expirationDate. -/
def cNoExpiry : CookieRecord :=
  { name := "sid"
    value := "abc"
    domain := "example.com" }

/-- The field names of a parsed JSON object, in order. -/
def objKeys : Json → List String
  | .obj kvs => kvs.map Prod.fst
  | _ => []

/-- The recognition rule in the words of the spec (with the field name
corrected from version to v), written independently for comparison with
the embedded recognizer envelopeParts: the parsed object has v strictly
equal to the number one and a truthy payload member. -/
def envelopeShapeSpec (w : Json) : Bool :=
  isNumOne (jLookup "v" w)
    && (match jLookup "payload" w with
        | some pj => jsonTruthy pj
        | none => false)

/-- A sample ciphertext payload. -/
def ctSample : Text :=
  .ofCipher (sjclEncrypt "pw" (.ofJson (serializeSnapshot [cNoExpiry])) 3)

/-- An envelope written with the field name the spec gives, version,
rather than the v the code writes and reads. -/
def envVersionNamed : Text :=
  .ofJson (.obj [("version", .num 1), ("payload", .str ctSample), ("checksum", .null)])

/-- The payload ciphertext of the mismatched concrete envelope: the
correct password pw would decrypt it. -/
def ctBad : Text :=
  .ofCipher (sjclEncrypt "pw" (.ofJson (serializeSnapshot [cNoExpiry])) 3)

/-- A concrete envelope whose checksum member is present and does not
match the checksum of the payload. -/
def envBadChecksum : Text :=
  .ofJson (.obj [("v", .num 1), ("payload", .str ctBad),
    ("checksum", .str (.raw "deadbeef"))])

/-! ## Helper lemmas -/

/-- The two rolling-hash updates are the same function. -/
theorem csStep_eq_gsStep : csStep = gsStep :=
  funext fun _ => funext fun _ => rfl

/-- The hexadecimal rendering of a nonzero natural is a nonempty digit
list. -/
theorem natToHexAux_ne_nil (n : Nat) (h : n ≠ 0) : natToHexAux (n + 1) n ≠ [] := by
  unfold natToHexAux
  simp [h]

/-- natToHex never renders the empty string. -/
theorem natToHex_ne_empty (n : Nat) : natToHex n ≠ "" := by
  unfold natToHex
  by_cases h : n = 0
  · simp [h]
  · simp only [h, if_false]
    intro hcontra
    have hdata := congrArg String.data hcontra
    simp at hdata
    exact natToHexAux_ne_nil n h hdata

/-- toHexJS never renders the empty string. -/
theorem toHexJS_ne_empty (n : Int) : toHexJS n ≠ "" := by
  unfold toHexJS
  by_cases h : n < 0
  · simp only [h, if_true]
    intro hcontra
    have hdata := congrArg String.data hcontra
    simp [String.data_append] at hdata
  · simp only [h, if_false]
    exact natToHex_ne_empty _

/-- The pipeline checksum of a text is never the empty string. -/
theorem checksumT_ne_empty (t : Text) : checksumT t ≠ "" :=
  toHexJS_ne_empty _

/-! ## Claim theorems -/

/-- C9: the checksum used to verify backup envelopes (calculateChecksum,
enhanced-features module) and the checksum used for settings-file
export/import (generateChecksum, settings module) compute the same
function on every input code-unit sequence: the rolling hash
hash = (hash << 5) - hash + unit folded into a 32-bit signed integer and
rendered as hexadecimal text with a possible leading minus sign. -/
theorem claim_C9 : ∀ data : List Nat, calculateChecksum data = generateChecksum data := by
  intro data
  simp [calculateChecksum, generateChecksum, csStep_eq_gsStep]

/-- C8: the backup-history ledger is bounded at 50 entries, most recent
first: every append of either implementation (enhanced-features module
and backup-core.js) puts the new entry at the head, caps the length at
50, and an append to a full 50-entry ledger drops exactly the oldest
entry. -/
theorem claim_C8 :
    ∀ (hist : List BackupHistoryEntry) (e : BackupHistoryEntry)
      (histC : List CoreHistoryEntry) (eC : CoreHistoryEntry),
      (addToBackupHistory hist e).length = min (hist.length + 1) 50
      ∧ (addToBackupHistory hist e).head? = some e
      ∧ (hist.length = 50 → addToBackupHistory hist e = e :: hist.dropLast)
      ∧ (addToBackupHistoryCore histC eC).length = min (histC.length + 1) 50
      ∧ (histC.length = 50 → addToBackupHistoryCore histC eC = eC :: histC.dropLast) := by
  intro hist e histC eC
  refine ⟨?_, ?_, ?_, ?_, ?_⟩
  · simp only [addToBackupHistory]
    split <;> (simp_all [List.length_take]; try omega)
  · simp only [addToBackupHistory]
    split <;> rfl
  · intro h
    simp only [addToBackupHistory]
    rw [if_pos (by simp [h])]
    show (e :: hist.take 49) = e :: hist.dropLast
    rw [List.dropLast_eq_take, h]
  · simp only [addToBackupHistoryCore]
    split <;> (simp_all [List.length_take]; try omega)
  · intro h
    simp only [addToBackupHistoryCore]
    rw [if_pos (by simp [h])]
    show (eC :: histC.take 49) = eC :: histC.dropLast
    rw [List.dropLast_eq_take, h]

/-- Witness for C8: appending a 51st entry to a concrete full 50-entry
ledger yields exactly 50 entries, newest at the head, oldest dropped. -/
theorem claim_C8_witness :
    (addToBackupHistory histFull entNew).length = 50
    ∧ (addToBackupHistory histFull entNew).head? = some entNew
    ∧ addToBackupHistory histFull entNew = entNew :: histFull.dropLast
    ∧ (addToBackupHistoryCore histFullCore entNewCore).length = 50
    ∧ addToBackupHistoryCore histFullCore entNewCore = entNewCore :: histFullCore.dropLast := by
  obtain ⟨h1, h2, h3, h4, h5⟩ := claim_C8 histFull entNew histFullCore entNewCore
  refine ⟨?_, h2, h3 (by decide), ?_, h5 (by decide)⟩
  · rw [h1]; decide
  · rw [h4]; decide

/-- Positional description of the replay loop: the outcome at position k
is the step on the record at position k with the collaborator answer at
that position. -/
theorem replayAux_get? (now : Int) (oracle : Nat → Option String) :
    ∀ (l : List CookieRecord) (i k : Nat),
      (replayAux now oracle i l).get? k
        = (l.get? k).map (replayStep now (oracle (i + k))) := by
  intro l
  induction l with
  | nil => intro i k; simp [replayAux]
  | cons c rest ih =>
    intro i k
    cases k with
    | zero => simp [replayAux]
    | succ k =>
      simp only [replayAux, List.get?_cons_succ, ih (i + 1) k]
      have : i + 1 + k = i + (k + 1) := by omega
      rw [this]

/-- Positional description of a whole replay. -/
theorem replay_get? (now : Int) (oracle : Nat → Option String)
    (records : List CookieRecord) (k : Nat) :
    (replay now oracle records).get? k
      = (records.get? k).map (replayStep now (oracle k)) := by
  have h := replayAux_get? now oracle records 0 k
  simpa [replay] using h

/-- The replay loop never aborts: one outcome per record. -/
theorem replay_length (now : Int) (oracle : Nat → Option String)
    (records : List CookieRecord) :
    (replay now oracle records).length = records.length := by
  unfold replay
  generalize 0 = i
  induction records generalizing i with
  | nil => rfl
  | cons c rest ih => simp [replayAux, ih]

/-- C6 (amended): the preparation rule of the claim holds on the
encrypted restore path of handleDecPasswdSubmit: when hostOnly is true
the domain field is not sent, when session is true the expirationDate
field is not sent, and missing fields are defaulted to sameSite
no_restriction, secure from the URL scheme, httpOnly false and path "/".
The other two restore paths do not implement this rule (see the
counterexample). -/
theorem claim_C6_amended :
    ∀ c : CookieRecord,
      (c.hostOnly = some true → (prepare c).domain = none)
      ∧ (c.session = some true → (prepare c).expirationDate = none)
      ∧ (c.sameSite = none → (prepare c).sameSite = "no_restriction")
      ∧ (c.secure = none → (prepare c).secure = (mkUrl c).startsWith "https")
      ∧ (c.httpOnly = none → (prepare c).httpOnly = false)
      ∧ (c.path = none → (prepare c).path = "/") := by
  intro c
  refine ⟨fun h => ?_, fun h => ?_, fun h => ?_, fun h => ?_, fun h => ?_, fun h => ?_⟩ <;>
    simp [prepare, h]

/-- Counterexample for C6: the preparation rule does not hold on every
restore path.  For a record with hostOnly and session true, the
unencrypted import path (restoreUnencryptedCookies, popup.js) still sends
the domain, and the backup-core restore path (restoreCookies) sends both
the domain and the expirationDate and defaults a missing sameSite to lax
instead of no_restriction. -/
theorem claim_C6_counterexample :
    (unencSetArg cHostOnly).domain = some "a.example"
    ∧ (coreSetArg cHostOnly).domain = "a.example"
    ∧ (coreSetArg cHostOnly).expirationDate = some 99
    ∧ (coreSetArg cHostOnly).sameSite = "lax" :=
  ⟨rfl, rfl, rfl, rfl⟩

/-- Witness for C6 (amended): the rule evaluated on the concrete record
cHostOnly. -/
theorem claim_C6_witness :
    (prepare cHostOnly).domain = none
    ∧ (prepare cHostOnly).expirationDate = none
    ∧ (prepare cHostOnly).sameSite = "no_restriction"
    ∧ (prepare cHostOnly).httpOnly = false
    ∧ (prepare cHostOnly).path = "/" := by
  obtain ⟨h1, h2, h3, _h4, h5, h6⟩ := claim_C6_amended cHostOnly
  exact ⟨h1 rfl, h2 rfl, h3 rfl, h5 rfl, h6 rfl⟩

/-- C4 (amended): during replay, every record whose expirationDate is
present, truthy (nonzero) and earlier than the current epoch time is
skipped with an Expired outcome and no cookie-set call; such a skip is
not a failure, and a two-record snapshot of one such expired record and
one record without expirationDate reports restored 1 out of total 2. -/
theorem claim_C4_amended :
    (∀ (records : List CookieRecord) (now : Int) (oracle : Nat → Option String)
       (i : Nat) (c : CookieRecord) (e : Int),
       records.get? i = some c → c.expirationDate = some e → e ≠ 0 → e < now →
       (replay now oracle records).get? i = some (.expired c.name (mkUrl c), none))
    ∧ (∀ (cExp cPlain : CookieRecord) (now e : Int),
       cExp.expirationDate = some e → e ≠ 0 → e < now →
       cPlain.expirationDate = none →
       restoreAlert now (fun _ => none) [cExp, cPlain] = (1, 2)) := by
  constructor
  · intro records now oracle i c e hget hexp hne hlt
    rw [replay_get?, hget]
    have hskip : isExpiredSkip now c = true := by
      simp [isExpiredSkip, hexp, hne, hlt]
    simp [replayStep, hskip]
  · intro cExp cPlain now e hexp hne hlt hplain
    have hskip : isExpiredSkip now cExp = true := by
      simp [isExpiredSkip, hexp, hne, hlt]
    have hnoskip : isExpiredSkip now cPlain = false := by
      simp [isExpiredSkip, hplain]
    simp [restoreAlert, replay, replayAux, replayStep, hskip, hnoskip,
      outcomeRestored, List.countP_cons]

/-- Counterexample for C4: a record whose expirationDate is present and
earlier than the current time (epoch zero, now 100) is not skipped: the
replay issues a cookie-set call for it and reports it restored, because
the source guards the skip with the truthiness of expirationDate and the
number zero is falsy. -/
theorem claim_C4_counterexample :
    cZeroExpiry.expirationDate = some 0
    ∧ (0 : Int) < 100
    ∧ replay 100 (fun _ => none) [cZeroExpiry]
        = [(Outcome.restored, some (prepare cZeroExpiry))] :=
  ⟨rfl, by decide, rfl⟩

/-- Witness for C4 (amended): the concrete two-record snapshot. -/
theorem claim_C4_witness :
    (replay 100 (fun _ => none) [cPastExpiry, cNoExpiry]).get? 0
      = some (.expired "e" (mkUrl cPastExpiry), none)
    ∧ restoreAlert 100 (fun _ => none) [cPastExpiry, cNoExpiry] = (1, 2) := by
  constructor
  · exact (claim_C4_amended).1 [cPastExpiry, cNoExpiry] 100 (fun _ => none) 0
      cPastExpiry 50 rfl rfl (by decide) (by decide)
  · exact (claim_C4_amended).2 cPastExpiry cNoExpiry 100 50 rfl (by decide) (by decide) rfl

/-- Every record of the backup-core restore loop lands in exactly one of
the two counters: no per-record rejection aborts that batch either. -/
theorem restoreCoreCounts_total (oracle : Nat → Bool) :
    ∀ (l : List CookieRecord) (i s f : Nat),
      (restoreCoreCounts oracle i s f l).1 + (restoreCoreCounts oracle i s f l).2
        = s + f + l.length := by
  intro l
  induction l with
  | nil => intro i s f; simp [restoreCoreCounts]
  | cons c rest ih =>
    intro i s f
    simp only [restoreCoreCounts, List.length_cons]
    split
    · rw [ih]; omega
    · rw [ih]; omega

/-- C5: when the cookie-set collaborator reports an error for one record
of the replay, that record gets an Unknown failure outcome carrying the
collaborator message, the loop continues (one outcome per record, never
aborting), the final alert reports the full list length as total, and
for three records with only the middle set call failing the report is
restored 2 of total 3 with both non-failing records actually written;
likewise the backup-core restore loop isolates per-record failures,
accounts every record as restored or failed, and reports restored 2,
failed 1 for the middle-failure example. -/
theorem claim_C5 :
    (∀ (records : List CookieRecord) (now : Int) (oracle : Nat → Option String),
       (replay now oracle records).length = records.length
       ∧ (restoreAlert now oracle records).2 = records.length)
    ∧ (∀ (records : List CookieRecord) (now : Int) (oracle : Nat → Option String)
         (i : Nat) (c : CookieRecord) (msg : String),
       records.get? i = some c → isExpiredSkip now c = false → oracle i = some msg →
       (replay now oracle records).get? i
         = some (.unknownErr c.name ((prepare c).url ++ " - " ++ msg), some (prepare c)))
    ∧ (∀ (a b c : CookieRecord) (now : Int) (msg : String),
       a.expirationDate = none → b.expirationDate = none → c.expirationDate = none →
       restoreAlert now (fun i => if i = 1 then some msg else none) [a, b, c] = (2, 3)
       ∧ writtenCalls (replay now (fun i => if i = 1 then some msg else none) [a, b, c])
           = [prepare a, prepare c])
    ∧ (∀ (records : List CookieRecord) (oracle : Nat → Bool),
       (restoreCookiesReport records oracle).1 + (restoreCookiesReport records oracle).2
         = records.length)
    ∧ (∀ (a b c : CookieRecord),
       restoreCookiesReport [a, b, c] (fun i => i != 1) = (2, 1)) := by
  refine ⟨fun records now oracle => ⟨replay_length now oracle records, rfl⟩, ?_, ?_,
    fun records oracle => by simpa using restoreCoreCounts_total oracle records 0 0 0,
    fun a b c => rfl⟩
  · intro records now oracle i c msg hget hnoskip hans
    rw [replay_get?, hget]
    simp [replayStep, hnoskip, hans]
  · intro a b c now msg ha hb hc
    have hna : isExpiredSkip now a = false := by simp [isExpiredSkip, ha]
    have hnb : isExpiredSkip now b = false := by simp [isExpiredSkip, hb]
    have hnc : isExpiredSkip now c = false := by simp [isExpiredSkip, hc]
    constructor
    · simp [restoreAlert, replay, replayAux, replayStep, hna, hnb, hnc,
        outcomeRestored, List.countP_cons]
    · simp [writtenCalls, replay, replayAux, replayStep, hna, hnb, hnc]

/-- Witness for C5: three concrete records with the middle set call made
to fail. -/
theorem claim_C5_witness :
    (replay 100 (fun i => if i = 1 then some "boom" else none)
        [cNoExpiry, cNoExpiry, cNoExpiry]).get? 1
      = some (.unknownErr "sid" ((prepare cNoExpiry).url ++ " - " ++ "boom"),
          some (prepare cNoExpiry))
    ∧ restoreAlert 100 (fun i => if i = 1 then some "boom" else none)
        [cNoExpiry, cNoExpiry, cNoExpiry] = (2, 3)
    ∧ writtenCalls (replay 100 (fun i => if i = 1 then some "boom" else none)
        [cNoExpiry, cNoExpiry, cNoExpiry]) = [prepare cNoExpiry, prepare cNoExpiry] := by
  obtain ⟨h3a, h3b⟩ := claim_C5.2.2.1 cNoExpiry cNoExpiry cNoExpiry 100 "boom" rfl rfl rfl
  refine ⟨?_, h3a, h3b⟩
  exact claim_C5.2.1 [cNoExpiry, cNoExpiry, cNoExpiry] 100
    (fun i => if i = 1 then some "boom" else none) 1 cNoExpiry "boom" rfl rfl rfl

/-- Closed form of the counting loop of restoreUnencryptedCookies: the
counter ends at the running total plus the list length, and the alert
fires with n exactly when the counter passes n within this run. -/
theorem ruAux_spec (oracle : Nat → Bool) (n : Nat) :
    ∀ (l : List CookieRecord) (i imported : Nat) (alert : Option Nat),
      ruAux oracle n i imported alert l
        = (imported + l.length,
           if imported < n ∧ n ≤ imported + l.length then some n else alert) := by
  intro l
  induction l with
  | nil =>
    intro i imported alert
    simp only [ruAux, List.length_nil, Nat.add_zero]
    rw [if_neg (by omega)]
  | cons c rest ih =>
    intro i imported alert
    simp only [ruAux, ih, List.length_cons]
    rw [Prod.mk.injEq]
    refine ⟨by omega, ?_⟩
    split_ifs <;> (try simp_all) <;> omega

/-- C10: in the unencrypted import path (restoreUnencryptedCookies), the
imported counter is incremented inside every chrome.cookies.set callback
regardless of whether the call failed, so the run is independent of the
per-record success answers, no failure is ever detected, and the success
alert (which fires once the counter reaches the list length, hence on any
nonempty list) reports a restored count equal to the full list length
even when some set calls fail. -/
theorem claim_C10 :
    ∀ (records : List CookieRecord) (oracle : Nat → Bool),
      (restoreUnencrypted records oracle).1 = records.length
      ∧ restoreUnencrypted records oracle = restoreUnencrypted records (fun _ => true)
      ∧ (records ≠ [] → (restoreUnencrypted records oracle).2 = some records.length) := by
  intro records oracle
  unfold restoreUnencrypted
  rw [ruAux_spec oracle records.length records 0 0 none,
    ruAux_spec (fun _ => true) records.length records 0 0 none]
  refine ⟨by simp, rfl, fun hne => ?_⟩
  have hpos : 0 < records.length := List.length_pos.mpr hne
  simp only [Nat.zero_add]
  rw [if_pos (by omega)]

/-- Witness for C10: two concrete records with the first set call made to
fail; the alert still reports two restored. -/
theorem claim_C10_witness :
    (restoreUnencrypted [cNoExpiry, cPastExpiry] (fun i => i != 0)).1 = 2
    ∧ restoreUnencrypted [cNoExpiry, cPastExpiry] (fun i => i != 0)
        = restoreUnencrypted [cNoExpiry, cPastExpiry] (fun _ => true)
    ∧ (restoreUnencrypted [cNoExpiry, cPastExpiry] (fun i => i != 0)).2 = some 2 := by
  obtain ⟨h1, h2, h3⟩ := claim_C10 [cNoExpiry, cPastExpiry] (fun i => i != 0)
  exact ⟨h1, h2, h3 (by decide)⟩

/-- C3 (amended): the envelope written by the current encrypted backup is
a JSON object whose fields are exactly v (the number one), payload (the
ciphertext string) and checksum (null when the enhanced-features module
is absent); the restore consumer recognizes the enveloped format exactly
when the raw input parses as JSON with v strictly equal to one and a
truthy payload member (the checksum member is not required), and any
other input is kept whole as legacy bare ciphertext. -/
theorem claim_C3_amended :
    ∀ (enhanced : Bool) (ct : Text),
      objKeys (wrapEnvelope enhanced ct) = ["v", "payload", "checksum"]
      ∧ jLookup "v" (wrapEnvelope enhanced ct) = some (.num 1)
      ∧ jLookup "payload" (wrapEnvelope enhanced ct) = some (.str ct)
      ∧ jLookup "version" (wrapEnvelope enhanced ct) = none
      ∧ (∀ w : Json, (envelopeParts (.ofJson w)).isSome = envelopeShapeSpec w)
      ∧ (∀ data : Text, envelopeParts data = none →
          selectEncryptedData enhanced data = data) := by
  intro enhanced ct
  refine ⟨rfl, rfl, rfl, rfl, ?_, ?_⟩
  · intro w
    unfold envelopeParts envelopeShapeSpec parseJson
    cases hv : isNumOne (jLookup "v" w) with
    | false => simp [hv]
    | true =>
      simp only [hv, if_true, Bool.true_and]
      cases hp : jLookup "payload" w with
      | none => simp
      | some pj => cases ht : jsonTruthy pj <;> simp [ht]
  · intro data hnone
    unfold selectEncryptedData
    rw [hnone]

/-- Witness for C3 (amended): the produced envelope evaluated on a
concrete ciphertext, and a concrete non-JSON text kept whole as legacy
bare ciphertext. -/
theorem claim_C3_witness :
    objKeys (wrapEnvelope true (Text.raw "ct")) = ["v", "payload", "checksum"]
    ∧ jLookup "version" (wrapEnvelope true (Text.raw "ct")) = none
    ∧ selectEncryptedData true (Text.raw "zzz") = Text.raw "zzz" := by
  obtain ⟨h1, _h2, _h3, h4, _h5, h6⟩ := claim_C3_amended true (Text.raw "ct")
  exact ⟨h1, h4, (claim_C3_amended true (Text.raw "ct")).2.2.2.2.2 (Text.raw "zzz") rfl⟩

/-- Counterexample for C3: the current producer writes no field named
version, and an input using the spelled-out field name
version with version equal to one and a valid payload is not recognized
as an envelope; it falls through to the legacy bare-ciphertext path. -/
theorem claim_C3_counterexample :
    jLookup "version" (wrapEnvelope true ctSample) = none
    ∧ envelopeParts envVersionNamed = none
    ∧ selectEncryptedData true envVersionNamed = envVersionNamed :=
  ⟨rfl, rfl, rfl⟩

/-- The file handleEncPasswdSubmit writes is recognized as an envelope,
with the ciphertext as payload and the checksum member the producer
stored. -/
theorem envelopeParts_encBackupFile (enhanced : Bool) (p : String)
    (S : List CookieRecord) (nonce : Nat) :
    envelopeParts (encBackupFile enhanced p S nonce)
      = some (Json.str (.ofCipher (.enc p (.ofJson (serializeSnapshot S)) nonce)),
          some (if enhanced
            then Json.str (.raw (checksumT
              (.ofCipher (.enc p (.ofJson (serializeSnapshot S)) nonce))))
            else Json.null)) := rfl

/-- C7 (amended): the encrypted backup of handleEncPasswdSubmit
(popup.js) always writes the enveloped JSON form, recognized back by the
restore consumer with the ciphertext as payload; but the legacy bare
shape is still produced on write by current code: manualCookieBackup
(backup-core.js) emits the bare sjcl ciphertext with no wrapper, to both
the download blob and the Telegram push, and that output is classified as
legacy by the consumer. -/
theorem claim_C7_amended :
    (∀ (enhanced : Bool) (p : String) (S : List CookieRecord) (nonce : Nat),
       envelopeParts (encBackupFile enhanced p S nonce)
         = some (Json.str (.ofCipher (.enc p (.ofJson (serializeSnapshot S)) nonce)),
             some (if enhanced
               then Json.str (.raw (checksumT
                 (.ofCipher (.enc p (.ofJson (serializeSnapshot S)) nonce))))
               else Json.null)))
    ∧ (∀ (p : String) (S : List CookieRecord) (nonce : Nat),
       manualBackupText p S nonce
         = Text.ofCipher (.enc p (.ofJson (serializeSnapshot S)) nonce)
       ∧ envelopeParts (manualBackupText p S nonce) = none) := by
  exact ⟨fun enhanced p S nonce => envelopeParts_encBackupFile enhanced p S nonce,
    fun p S nonce => ⟨rfl, rfl⟩⟩

/-- Counterexample for C7: a concrete backup the current code writes that
is the bare ciphertext, not the enveloped JSON form: the file content of
manualCookieBackup for a one-record snapshot is the raw ciphertext, and
the consumer treats it as legacy. -/
theorem claim_C7_counterexample :
    manualBackupText "pw" [cNoExpiry] 7
      = Text.ofCipher (.enc "pw" (.ofJson (serializeSnapshot [cNoExpiry])) 7)
    ∧ envelopeParts (manualBackupText "pw" [cNoExpiry] 7) = none :=
  ⟨rfl, rfl⟩

/-- C2 (amended): when the parsed envelope carries a truthy checksum that
does not match the checksum of the payload (enhanced features present),
the thrown mismatch error is swallowed by the backward-compatibility
catch, which resets the decryption input to the whole raw envelope text;
decrypting that text fails as malformed ciphertext, so the restore aborts
with the invalid-file alert: a checksum mismatch is fatal in effect, the
payload is never decrypted, and the checksum-specific alert branch is
unreachable. -/
theorem claim_C2_amended :
    ∀ (pass : String) (plain : Text) (nonce : Nat) (s : String),
      0 < pass.length → s ≠ "" →
      s ≠ checksumT (.ofCipher (.enc pass plain nonce)) →
      decodeStage true pass
        (.ofJson (.obj [("v", .num 1),
          ("payload", .str (.ofCipher (.enc pass plain nonce))),
          ("checksum", .str (.raw s))])) = .error .invalidFile := by
  intro pass plain nonce s hlen hs hne
  have hep : envelopeParts
      (.ofJson (.obj [("v", .num 1),
        ("payload", .str (.ofCipher (.enc pass plain nonce))),
        ("checksum", .str (.raw s))]))
      = some (Json.str (.ofCipher (.enc pass plain nonce)),
          some (Json.str (.raw s))) := rfl
  have hstruthy : (s != "") = true := by
    simp [bne_iff_ne]
    exact hs
  have hsel : selectEncryptedData true
      (.ofJson (.obj [("v", .num 1),
        ("payload", .str (.ofCipher (.enc pass plain nonce))),
        ("checksum", .str (.raw s))]))
      = .ofJson (.obj [("v", .num 1),
        ("payload", .str (.ofCipher (.enc pass plain nonce))),
        ("checksum", .str (.raw s))]) := by
    unfold selectEncryptedData
    rw [hep]
    simp only [textOfJson, jsonTruthy, textTruthy, hstruthy, Bool.true_and, if_true]
    rw [if_neg (fun h => hne h.symm)]
  unfold decodeStage
  rw [if_neg (by omega), hsel]
  rfl

/-- Counterexample for C2: on this mismatched envelope the restore does
not proceed to decryption of the payload and does not merely log a
warning: it aborts with the invalid-file alert, even though the payload
itself decrypts fine with the same password. -/
theorem claim_C2_counterexample :
    decodeStage true "pw" envBadChecksum = .error .invalidFile
    ∧ sjclDecrypt "pw" ctBad = .ok (.ofJson (serializeSnapshot [cNoExpiry])) :=
  ⟨rfl, rfl⟩

/-- Witness for C2 (amended): the theorem applied to the concrete
mismatched envelope. -/
theorem claim_C2_witness :
    decodeStage true "pw"
      (.ofJson (.obj [("v", .num 1),
        ("payload", .str (.ofCipher (.enc "pw" (.ofJson (serializeSnapshot [cNoExpiry])) 3))),
        ("checksum", .str (.raw "deadbeef"))])) = .error .invalidFile := by
  exact claim_C2_amended "pw" (.ofJson (serializeSnapshot [cNoExpiry])) 3 "deadbeef"
    (by decide) (by decide) (by decide)

set_option maxHeartbeats 2000000 in
/-- Reading a serialized cookie record back recovers the record. -/
theorem cookieFromJson_toJson (c : CookieRecord) :
    cookieFromJson (cookieToJson c) = some c := by
  rcases c with ⟨n, v, d, pa, se, ho, ss, hon, sess, ed⟩
  cases pa <;> cases se <;> cases ho <;> cases ss <;> cases hon <;> cases sess <;>
    cases ed <;> rfl

/-- Reading a whole serialized snapshot back recovers the record list in
order. -/
theorem decodeRecords_map (S : List CookieRecord) :
    decodeRecords (S.map cookieToJson) = some S := by
  induction S with
  | nil => rfl
  | cons c rest ih => simp [decodeRecords, cookieFromJson_toJson, ih]

/-- The consumer always hands the produced ciphertext to sjcl.decrypt:
for a file built by the producer, envelope recognition succeeds and the
checksum, when present and verified, matches. -/
theorem selectEncryptedData_encBackupFile (producerEnhanced consumerEnhanced : Bool)
    (p : String) (S : List CookieRecord) (nonce : Nat) :
    selectEncryptedData consumerEnhanced (encBackupFile producerEnhanced p S nonce)
      = .ofCipher (.enc p (.ofJson (serializeSnapshot S)) nonce) := by
  have hep := envelopeParts_encBackupFile producerEnhanced p S nonce
  unfold selectEncryptedData
  rw [hep]
  cases producerEnhanced with
  | false => simp [textOfJson, jsonTruthy, encBackupFile, sjclEncrypt, compressData]
  | true =>
    have htruthy : (checksumT (.ofCipher (.enc p (.ofJson (serializeSnapshot S)) nonce))
        != "") = true := by
      simp [bne_iff_ne]
      exact checksumT_ne_empty _
    cases consumerEnhanced with
    | false => simp [textOfJson, jsonTruthy, textTruthy, encBackupFile, sjclEncrypt,
        compressData]
    | true =>
      simp only [if_true, textOfJson, jsonTruthy, textTruthy, htruthy, Bool.true_and,
        Bool.and_true, if_pos rfl]

/-- C1: for every non-empty snapshot and every password of length at
least four, the full backup pipeline followed by the restore pipeline
recovers the snapshot exactly: the decode stage of
handleDecPasswdSubmit, applied to the file handleEncPasswdSubmit writes,
returns exactly the serialized records (with or without the
enhanced-features module on either side), and reading those parsed
records back yields the original record list in input order. -/
theorem claim_C1 :
    ∀ (producerEnhanced consumerEnhanced : Bool) (S : List CookieRecord)
      (p : String) (nonce : Nat),
      S ≠ [] → 4 ≤ p.length →
      decodeStage consumerEnhanced p (encBackupFile producerEnhanced p S nonce)
        = .ok (S.map cookieToJson)
      ∧ decodeRecords (S.map cookieToJson) = some S := by
  intro pE cE S p nonce hne hlen
  refine ⟨?_, decodeRecords_map S⟩
  unfold decodeStage
  rw [if_neg (by omega), selectEncryptedData_encBackupFile]
  have hdec : sjclDecrypt p (.ofCipher (.enc p (.ofJson (serializeSnapshot S)) nonce))
      = .ok (.ofJson (serializeSnapshot S)) := by
    simp [sjclDecrypt]
  rw [hdec]
  cases S with
  | nil => exact absurd rfl hne
  | cons c rest => rfl

/-- Witness for C1: a concrete two-record snapshot round-trips through
the enhanced producer and consumer with password pass. -/
theorem claim_C1_witness :
    decodeStage true "pass" (encBackupFile true "pass" [cNoExpiry, cHostOnly] 7)
      = .ok ([cNoExpiry, cHostOnly].map cookieToJson)
    ∧ decodeRecords ([cNoExpiry, cHostOnly].map cookieToJson)
      = some [cNoExpiry, cHostOnly] := by
  exact claim_C1 true true [cNoExpiry, cHostOnly] "pass" 7 (by decide) (by decide)

end CookieVault
